import Mathlib

/-!
# Bouncing-ball simulation

A shallow embedding of the parts of the program that the specification talks
about:

* the frame loop and the start-up sequence of `main` (main.cpp),
* the vertex upload `setupVAO` (main.cpp),
* the pixel loop of `takeScreenshot` (Globals.cpp),
* the constants and global variables of Globals.cpp / Globals.h.

Conventions.

* `float` and `double` values are modelled as exact rationals (`ℚ`): the
  arithmetic and the comparisons of the source are kept, rounding is not
  modelled, and the implicit `double`→`float` conversion of an assignment is the
  identity.
* `int` values are integers; where the source computes with them the
  32-bit wrap is written out (`wrapInt`).
* Functions that main.cpp calls but whose bodies live in other translation
  units (`launchBall`, `updateBall`, `updateParticles`, `display`, the input
  callbacks run by `glfwPollEvents`, ...) are parameters: arbitrary
  transformers of the global state.  Every call the loop makes is also logged,
  so that the order and number of calls can be stated.
* The kinematics integrator and the trajectory sampler are not part of the
  available sources; they are modelled from the specification and marked so.
-/

namespace BouncingBall

/-! ## Globals.h / Globals.cpp -/

/-- The initial value of the global `windowWidth`. -/
def windowWidth : Int := 800

/-- The initial value of the global `windowHeight`. -/
def windowHeight : Int := 600

/-- The constant `GRAVITY = 0.35f`. -/
def GRAVITY : ℚ := 35 / 100

/-- The constant `RESTITUTION = 0.92f`. -/
def RESTITUTION : ℚ := 92 / 100

/-- The constant `BALL_SIZE = 60.0f`. -/
def BALL_SIZE : ℚ := 60

/-- The constant `BUNNY_SCALE = 15.0f`. -/
def BUNNY_SCALE : ℚ := 15

/-- The constant `AIR_RESISTANCE = 0.998f`. -/
def AIR_RESISTANCE : ℚ := 998 / 1000

/-- The enumeration `ObjectType`. -/
inductive ObjectType where
  | CUBE
  | SPHERE
  | BUNNY
deriving DecidableEq, Repr

/-- The type `GLfloat`. -/
abbrev GLfloat := ℚ

/-- The vector type `vec2` of Angel.h (two floats). -/
structure vec2 where
  x : GLfloat
  y : GLfloat
deriving DecidableEq

/-- The vector type `vec3` of Angel.h (three floats). -/
structure vec3 where
  x : GLfloat
  y : GLfloat
  z : GLfloat
deriving DecidableEq

/-- The vector type `vec4` of Angel.h (four floats). -/
structure vec4 where
  x : GLfloat
  y : GLfloat
  z : GLfloat
  w : GLfloat
deriving DecidableEq

/-- The struct `BallObject` of Globals.h. -/
structure BallObject where
  x : ℚ
  y : ℚ
  vx : ℚ
  vy : ℚ
  colorIndex : Int
  type : ObjectType
  size : ℚ
  launchTime : ℚ
deriving DecidableEq

/-- The struct `Particle` of Globals.h. -/
structure Particle where
  position : vec2
  velocity : vec2
  color : vec4
  life : ℚ
  size : ℚ
deriving DecidableEq

/-- The global variables that `main` reads or writes, or that the specification names.
Everything else (the primary object, modes, colours, geometry, GL handles, the
random-number state, ...) is the field `other`. -/
structure Globals (ω : Type) where
  multipleObjects : Bool
  balls : List BallObject
  launchInterval : ℚ
  lastLaunchTime : ℚ
  particles : List Particle
  showParticles : Bool
  bunnyLoaded : Bool
  other : ω

/-- The functions the frame loop calls whose bodies are in other translation
units.  `glfwPollEvents` runs the registered input callbacks on the events
`ι` that arrived. -/
structure Ops (ω ι : Type) where
  launchBall : Globals ω → Globals ω
  updateBall : ℚ → Globals ω → Globals ω
  updateParticles : ℚ → Globals ω → Globals ω
  display : Globals ω → Globals ω
  glfwPollEvents : ι → Globals ω → Globals ω

/-- A call made by one iteration of the frame loop. -/
inductive Call where
  | launchBall
  | updateBall (dt : ℚ)
  | updateParticles (dt : ℚ)
  | display
  | glfwSwapBuffers
  | glfwPollEvents
deriving DecidableEq

/-- The test `multipleObjects && (currentT - lastLaunchTime) > launchInterval`. -/
def launchDue {ω : Type} (currentT : ℚ) (g : Globals ω) : Bool :=
  g.multipleObjects && decide (currentT - g.lastLaunchTime > g.launchInterval)

/-- Lines 170-173: the conditional spawn.  Returns the new globals and the calls
made. -/
def spawnStep {ω ι : Type} (ops : Ops ω ι) (currentT : ℚ) (g : Globals ω) :
    Globals ω × List Call :=
  if launchDue currentT g then
    ({ ops.launchBall g with lastLaunchTime := currentT }, [Call.launchBall])
  else
    (g, [])

/-- Line 175: `if (showParticles) updateParticles(dt);`. -/
def particleStep {ω ι : Type} (ops : Ops ω ι) (dt : ℚ) (g : Globals ω) :
    Globals ω × List Call :=
  if g.showParticles then
    (ops.updateParticles dt g, [Call.updateParticles dt])
  else
    (g, [])

/-- The local variable `lastTime` of `main` together with the globals. -/
structure LoopState (ω : Type) where
  lastTime : ℚ
  g : Globals ω

/-- What one iteration receives from outside: the value `glfwGetTime()` returns
and the input events delivered by `glfwPollEvents`. -/
structure FrameInput (ι : Type) where
  currentT : ℚ
  events : ι

/-- The globals as they are when line 175 tests `showParticles`: after the
conditional spawn and `updateBall(dt)`. -/
def beforeParticles {ω ι : Type} (ops : Ops ω ι) (inp : FrameInput ι) (s : LoopState ω) :
    Globals ω :=
  ops.updateBall (inp.currentT - s.lastTime) (spawnStep ops inp.currentT s.g).1

/-- One iteration of the `while` loop (lines 166-179): the state after it and the
calls it made, in order. -/
def frame {ω ι : Type} (ops : Ops ω ι) (inp : FrameInput ι) (s : LoopState ω) :
    LoopState ω × List Call :=
  let currentT := inp.currentT
  let dt := currentT - s.lastTime
  let r1 := spawnStep ops currentT s.g
  let g2 := ops.updateBall dt r1.1
  let r3 := particleStep ops dt g2
  let g4 := ops.display r3.1
  let g5 := ops.glfwPollEvents inp.events g4
  ({ lastTime := currentT, g := g5 },
    r1.2 ++ [Call.updateBall dt] ++ r3.2 ++
      [Call.display, Call.glfwSwapBuffers, Call.glfwPollEvents])

/-- The value of `sizeof(GLfloat)`. -/
def sizeofGLfloat : Nat := 4

/-- The arguments of one `glVertexAttribPointer` call: number of components,
stride in bytes and offset in bytes. -/
structure AttribPointer where
  size : Nat
  stride : Nat
  offset : Nat
deriving DecidableEq

/-- What `setupVAO` hands to OpenGL: the float array given to `glBufferData`
with its size in bytes, and the attribute pointers. -/
structure VAOUpload where
  data : List GLfloat
  bufferBytes : Nat
  position : AttribPointer
  normal : Option AttribPointer
deriving DecidableEq

/-- The `for` loop of lines 17-25, from index `i` on, with `vs` the
vertices `verts[i], verts[i+1], ...`.  The unchecked read `norms[i]` outside the
vector is undefined behaviour: the result is `none`. -/
def setupVAOLoop (norms : List vec3) : List vec4 → Nat → List GLfloat → Option (List GLfloat)
  | [], _, data => some data
  | v :: vs, i, data =>
    match norms[i]? with
    | none => none
    | some n => setupVAOLoop norms vs (i + 1) (data ++ [v.x, v.y, v.z, v.w, n.x, n.y, n.z])

/-- The function `setupVAO`; `hasNormal` says whether the shader program has
the attribute `vNormal` (`normLoc != (GLuint)-1`). -/
def setupVAO (hasNormal : Bool) (verts : List vec4) (norms : List vec3) : Option VAOUpload :=
  match setupVAOLoop norms verts 0 [] with
  | none => none
  | some data =>
    some
      { data := data
        bufferBytes := data.length * sizeofGLfloat
        position := { size := 4, stride := 7 * sizeofGLfloat, offset := 0 }
        normal :=
          if hasNormal then
            some { size := 3, stride := 7 * sizeofGLfloat, offset := 4 * sizeofGLfloat }
          else none }

/-! ## `takeScreenshot` (Globals.cpp, lines 165-195) -/

/-- A 32-bit two's-complement `int`: the value an arithmetic result wraps to. -/
def wrapInt (z : Int) : Int := (z + 2 ^ 31) % 2 ^ 32 - 2 ^ 31

/-- Line 167: the number of bytes allocated for the pixel array,
`3 * windowWidth * windowHeight`, computed in `int`. -/
def pixelBufferSize (windowWidth windowHeight : Int) : Int :=
  wrapInt (wrapInt (3 * windowWidth) * windowHeight)

/-- Line 186: `int pos = (y * windowWidth + x) * 3;`. -/
def pixelPos (windowWidth y x : Int) : Int :=
  wrapInt (wrapInt (wrapInt (y * windowWidth) + x) * 3)

/-- The three bytes `pixels[pos], pixels[pos+1], pixels[pos+2]` handed to
`file.write`; `none` when the read leaves the array. -/
def readPixel {β : Type} (pixels : List β) (pos : Int) : Option (List β) :=
  if 0 ≤ pos ∧ pos.toNat + 3 ≤ pixels.length then
    some ((pixels.drop pos.toNat).take 3)
  else none

/-- The inner loop `for (int x = ...; x < windowWidth; x++)` with `n` iterations
left, starting at `x`; `emit pos` is what the body does with `pos`. -/
def rowLoop {γ : Type} (emit : Int → Option (List γ)) (windowWidth y : Int) :
    Nat → Int → Option (List γ)
  | 0, _ => some []
  | n + 1, x =>
    match emit (pixelPos windowWidth y x) with
    | none => none
    | some bs =>
      match rowLoop emit windowWidth y n (x + 1) with
      | none => none
      | some rest => some (bs ++ rest)

/-- The outer loop `for (int y = ...; y >= 0; y--)` with `n` iterations left,
starting at `y`. -/
def columnLoop {γ : Type} (emit : Int → Option (List γ)) (windowWidth : Int) :
    Nat → Int → Option (List γ)
  | 0, _ => some []
  | n + 1, y =>
    match rowLoop emit windowWidth y windowWidth.toNat 0 with
    | none => none
    | some row =>
      match columnLoop emit windowWidth n (y - 1) with
      | none => none
      | some rest => some (row ++ rest)

/-- Lines 184-189: both loops, started as the source starts them. -/
def pixelLoops {γ : Type} (emit : Int → Option (List γ)) (windowWidth windowHeight : Int) :
    Option (List γ) :=
  columnLoop emit windowWidth (wrapInt (windowHeight - 1) + 1).toNat (wrapInt (windowHeight - 1))

/-- The values of `pos` in the order the loops compute them. -/
def writtenOffsets (windowWidth windowHeight : Int) : Option (List Int) :=
  pixelLoops (fun pos => some [pos]) windowWidth windowHeight

/-- Line 181: the PPM header. -/
def ppmHeader (windowWidth windowHeight : Int) : String :=
  "P6\n" ++ toString windowWidth ++ " " ++ toString windowHeight ++ "\n255\n"

/-- How `takeScreenshot` ends: the file could not be opened, a read left the
pixel array, or the file was written with this header and these bytes. -/
inductive ScreenshotResult (β : Type) where
  | openFailed
  | outOfBounds
  | saved (header : String) (data : List β)

/-- The function `takeScreenshot`: `pixels` is the array of `pixelBufferSize`
bytes as `glReadPixels` left it and `fileOk` is whether the output file could be
opened. -/
def takeScreenshot {β : Type} (windowWidth windowHeight : Int) (pixels : List β)
    (fileOk : Bool) : ScreenshotResult β :=
  if !fileOk then ScreenshotResult.openFailed
  else
    match pixelLoops (readPixel pixels) windowWidth windowHeight with
    | none => ScreenshotResult.outOfBounds
    | some data => ScreenshotResult.saved (ppmHeader windowWidth windowHeight) data

/-! ## Kinematics integrator (specification, section 4.1) -/

/-- The kinematic part of an object: position, velocity and size. -/
structure PhysObject where
  x : ℚ
  y : ℚ
  vx : ℚ
  vy : ℚ
  size : ℚ
deriving DecidableEq

/-- The window the object moves in. -/
structure Bounds where
  width : ℚ
  height : ℚ
deriving DecidableEq

/-- Modelled from the spec: the time step used by the integrator (physics.cpp is
not among the sources).  Section 4.1: "`dt_scale` incorporates a global
simulation-speed multiplier". -/
def dt_scale (dt simulationSpeed : ℚ) : ℚ := dt * simulationSpeed

/-- The floor boundary: window height minus half the object size. -/
def floorBoundary (o : PhysObject) (bounds : Bounds) : ℚ := bounds.height - o.size / 2

/-- Modelled from the spec: the function `integrate` of section 4.1 (physics.cpp
is not among the sources), in the order the section gives: velocity update
(`vy += gravity * dt_scale`, `vx *= airResistance`), position update
(`x += vx * dt_scale`, `y += vy * dt_scale`), then the boundary collisions,
which clamp the position and negate the velocity component scaled by
`restitution`.  The y axis points down (main.cpp, line 158), so the floor is at
the window height.  The cosmetic rotation angle is left out. -/
def integrate (o : PhysObject) (dt : ℚ) (bounds : Bounds)
    (gravity restitution airResistance simulationSpeed : ℚ) : PhysObject :=
  let s := dt_scale dt simulationSpeed
  let vy := o.vy + gravity * s
  let vx := o.vx * airResistance
  let x := o.x + vx * s
  let y := o.y + vy * s
  let half := o.size / 2
  let h : ℚ × ℚ :=
    if x < half then (half, -vx * restitution)
    else if x > bounds.width - half then (bounds.width - half, -vx * restitution)
    else (x, vx)
  let v : ℚ × ℚ :=
    if y > bounds.height - half then (bounds.height - half, -vy * restitution)
    else if y < half then (half, -vy * restitution)
    else (y, vy)
  { o with x := h.1, vx := h.2, y := v.1, vy := v.2 }

/-- The vertical position the velocity and position updates of `integrate`
produce, before the boundary test. -/
def updatedY (o : PhysObject) (dt gravity simulationSpeed : ℚ) : ℚ :=
  o.y + (o.vy + gravity * dt_scale dt simulationSpeed) * dt_scale dt simulationSpeed

/-- The object of the scenario of section 8: position (0, 590), velocity
(6, 10), size 60 (`BALL_SIZE`). -/
def scenarioObject : PhysObject :=
  { x := 0, y := 590, vx := 6, vy := 10, size := BALL_SIZE }

/-- The window of the program (`windowWidth = 800`, `windowHeight = 600`). -/
def scenarioBounds : Bounds := { width := windowWidth, height := windowHeight }

/-- The vertical velocity after the velocity update of `integrate`: the velocity
with which the object reaches a boundary in this step. -/
def impactVy (o : PhysObject) (dt gravity simulationSpeed : ℚ) : ℚ :=
  o.vy + gravity * dt_scale dt simulationSpeed

/-- An object resting near the floor of the program window, moving up slowly. -/
def slowObject : PhysObject :=
  { x := 400, y := 570, vx := 0, vy := -35 / 100 + 1 / 92, size := 60 }

/-- The step of the program on an object: its constants, simulation speed 1 and
`dt = 1`, in the program window. -/
def programStep (o : PhysObject) : PhysObject :=
  integrate o 1 scenarioBounds GRAVITY RESTITUTION AIR_RESISTANCE 1

/-- The object after `n` successive steps of `integrate` with the same
parameters (one step per frame). -/
def integrateN (dt : ℚ) (bounds : Bounds) (gravity restitution airResistance simulationSpeed : ℚ) :
    Nat → PhysObject → PhysObject
  | 0, o => o
  | n + 1, o =>
    integrate (integrateN dt bounds gravity restitution airResistance simulationSpeed n o) dt bounds
      gravity restitution airResistance simulationSpeed

/-- The step of `integrate` on this object touches neither the floor nor the
ceiling. -/
def FreeStep (o : PhysObject) (dt : ℚ) (bounds : Bounds) (gravity simulationSpeed : ℚ) : Prop :=
  ¬ updatedY o dt gravity simulationSpeed > floorBoundary o bounds ∧
  ¬ updatedY o dt gravity simulationSpeed < o.size / 2

/-- An object that has just bounced on the floor of the program window and
moves up with speed 0.4. -/
def reboundObject : PhysObject :=
  { x := 400, y := 570, vx := 0, vy := -4 / 10, size := 60 }

/-! ## Trajectory sampler (specification, section 4.2) -/

theorem frame_calls {ω ι : Type} (ops : Ops ω ι) (inp : FrameInput ι) (s : LoopState ω) :
    (frame ops inp s).2 =
      (if launchDue inp.currentT s.g then [Call.launchBall] else []) ++
        [Call.updateBall (inp.currentT - s.lastTime)] ++
        (if (beforeParticles ops inp s).showParticles then
          [Call.updateParticles (inp.currentT - s.lastTime)] else []) ++
        [Call.display, Call.glfwSwapBuffers, Call.glfwPollEvents] := by
  simp only [frame, spawnStep, particleStep, beforeParticles]
  split <;> split <;> simp_all

/-- C5: when `showParticles` is off at line 175 the iteration does not call
`updateParticles` and that step leaves the globals, the particle collection
included, exactly as they were, whatever `dt` and the collection are; when it is
on, `updateParticles` is called exactly once, with the `dt` of this iteration. -/
theorem C5_particle_update_gated {ω ι : Type} (ops : Ops ω ι) (inp : FrameInput ι)
    (s : LoopState ω) (g : Globals ω) (dt : ℚ) :
    (∀ d, Call.updateParticles d ∈ (frame ops inp s).2 ↔
      ((beforeParticles ops inp s).showParticles = true ∧ d = inp.currentT - s.lastTime)) ∧
    (frame ops inp s).2.count (Call.updateParticles (inp.currentT - s.lastTime)) =
      (if (beforeParticles ops inp s).showParticles = true then 1 else 0) ∧
    particleStep ops dt { g with showParticles := false } =
      ({ g with showParticles := false }, []) ∧
    (particleStep ops dt { g with showParticles := false }).1.particles = g.particles ∧
    particleStep ops dt { g with showParticles := true } =
      (ops.updateParticles dt { g with showParticles := true }, [Call.updateParticles dt]) := by
  refine ⟨?_, ?_, ?_, ?_, ?_⟩
  · intro d
    rw [frame_calls]
    by_cases h1 : launchDue inp.currentT s.g = true <;>
      by_cases h2 : (beforeParticles ops inp s).showParticles = true <;> simp [h1, h2]
  · rw [frame_calls]
    split <;> split <;> simp_all [List.count_cons]
  · simp [particleStep]
  · simp [particleStep]
  · simp [particleStep]

/-- What the loop of `setupVAO` appends when it runs to the end: seven floats
per vertex, the position first and the normal after it. -/
theorem setupVAOLoop_spec (norms : List vec3) (vs : List vec4) (i : Nat)
    (data out : List GLfloat) (h : setupVAOLoop norms vs i data = some out) :
    ∃ rest, out = data ++ rest ∧ rest.length = 7 * vs.length ∧
      ∀ k v, vs[k]? = some v → ∃ n, norms[i + k]? = some n ∧
        rest[7 * k]? = some v.x ∧ rest[7 * k + 1]? = some v.y ∧
        rest[7 * k + 2]? = some v.z ∧ rest[7 * k + 3]? = some v.w ∧
        rest[7 * k + 4]? = some n.x ∧ rest[7 * k + 5]? = some n.y ∧
        rest[7 * k + 6]? = some n.z := by
  induction vs generalizing i data with
  | nil =>
    simp only [setupVAOLoop, Option.some.injEq] at h
    exact ⟨[], by simp [h], by simp, by simp⟩
  | cons v vs ih =>
    unfold setupVAOLoop at h
    cases hn : norms[i]? with
    | none => simp [hn] at h
    | some n =>
      simp only [hn] at h
      obtain ⟨rest, ho, hl, hk⟩ := ih _ _ h
      refine ⟨[v.x, v.y, v.z, v.w, n.x, n.y, n.z] ++ rest, ?_, ?_, ?_⟩
      · rw [ho, List.append_assoc]
      · simp only [List.length_append, List.length_cons, List.length_nil, hl]
        omega
      · intro k w hw
        cases k with
        | zero =>
          simp only [List.getElem?_cons_zero, Option.some.injEq] at hw
          subst hw
          exact ⟨n, by simpa using hn, by simp, by simp, by simp, by simp, by simp, by simp,
            by simp⟩
        | succ k =>
          simp only [List.getElem?_cons_succ] at hw
          obtain ⟨m, hm, h0, h1, h2, h3, h4, h5, h6⟩ := hk k w hw
          have e : i + (k + 1) = i + 1 + k := by omega
          refine ⟨m, by rw [e]; exact hm, ?_, ?_, ?_, ?_, ?_, ?_, ?_⟩
          · rw [List.getElem?_append_right (by simp)]
            simpa [show 7 * (k + 1) - 7 = 7 * k by omega] using h0
          · rw [List.getElem?_append_right (by simp; omega)]
            simpa [show 7 * (k + 1) + 1 - 7 = 7 * k + 1 by omega] using h1
          · rw [List.getElem?_append_right (by simp; omega)]
            simpa [show 7 * (k + 1) + 2 - 7 = 7 * k + 2 by omega] using h2
          · rw [List.getElem?_append_right (by simp; omega)]
            simpa [show 7 * (k + 1) + 3 - 7 = 7 * k + 3 by omega] using h3
          · rw [List.getElem?_append_right (by simp; omega)]
            simpa [show 7 * (k + 1) + 4 - 7 = 7 * k + 4 by omega] using h4
          · rw [List.getElem?_append_right (by simp; omega)]
            simpa [show 7 * (k + 1) + 5 - 7 = 7 * k + 5 by omega] using h5
          · rw [List.getElem?_append_right (by simp; omega)]
            simpa [show 7 * (k + 1) + 6 - 7 = 7 * k + 6 by omega] using h6

/-- The loop of `setupVAO` runs to the end exactly when every read of `norms` is
inside the vector. -/
theorem setupVAOLoop_isSome (norms : List vec3) (vs : List vec4) (i : Nat)
    (data : List GLfloat) :
    (setupVAOLoop norms vs i data).isSome = true ↔ (vs = [] ∨ i + vs.length ≤ norms.length) := by
  induction vs generalizing i data with
  | nil => simp [setupVAOLoop]
  | cons v vs ih =>
    unfold setupVAOLoop
    cases hn : norms[i]? with
    | none =>
      have hi : norms.length ≤ i := by simpa using hn
      simp only [Option.isSome_none, List.length_cons]
      constructor
      · intro h
        cases h
      · intro h
        rcases h with h | h
        · cases h
        · omega
    | some n =>
      have hi : i < norms.length := by
        by_contra hc
        have : norms[i]? = none := by simpa using hc
        rw [this] at hn
        cases hn
      simp only [ih, List.length_cons]
      constructor
      · intro h
        right
        rcases h with h | h
        · subst h
          simp only [List.length_nil]
          omega
        · omega
      · intro h
        rcases h with h | h
        · cases h
        · right
          omega

/-- C10: `setupVAO` interleaves positions and normals with the layout its
attribute pointers declare.  When `norms` is at least as long as `verts`
(`n` vertices) the uploaded array has exactly `7 * n` floats, elements
`7i .. 7i+3` are x, y, z, w of `verts[i]` and elements `7i+4 .. 7i+6` are
x, y, z of `norms[i]`; the stride passed to `glVertexAttribPointer` is 7 floats
and the normal offset 4 floats; and every read `norms[i]` is in bounds exactly
when `norms` is at least as long as `verts`. -/
theorem C10_setupVAO_interleaves (hasNormal : Bool) (verts : List vec4) (norms : List vec3) :
    ((setupVAO hasNormal verts norms).isSome = true ↔ verts.length ≤ norms.length) ∧
    (verts.length ≤ norms.length →
      ∃ up, setupVAO hasNormal verts norms = some up ∧
        up.data.length = 7 * verts.length ∧
        up.bufferBytes = 7 * verts.length * sizeofGLfloat ∧
        (∀ i v, verts[i]? = some v → ∃ n, norms[i]? = some n ∧
          up.data[7 * i]? = some v.x ∧ up.data[7 * i + 1]? = some v.y ∧
          up.data[7 * i + 2]? = some v.z ∧ up.data[7 * i + 3]? = some v.w ∧
          up.data[7 * i + 4]? = some n.x ∧ up.data[7 * i + 5]? = some n.y ∧
          up.data[7 * i + 6]? = some n.z) ∧
        up.position = { size := 4, stride := 7 * sizeofGLfloat, offset := 0 } ∧
        up.normal =
          (if hasNormal = true then
            some { size := 3, stride := 7 * sizeofGLfloat, offset := 4 * sizeofGLfloat }
          else none)) := by
  have hiff : (setupVAO hasNormal verts norms).isSome = true ↔ verts.length ≤ norms.length := by
    have h := setupVAOLoop_isSome norms verts 0 []
    unfold setupVAO
    cases hl : setupVAOLoop norms verts 0 [] with
    | none =>
      rw [hl] at h
      simp only [Option.isSome_none, Nat.zero_add] at h ⊢
      constructor
      · intro hc
        cases hc
      · intro hc
        exact h.2 (Or.inr hc)
    | some data =>
      rw [hl] at h
      simp only [Option.isSome_some, Nat.zero_add, true_iff] at h ⊢
      rcases h with h | h
      · subst h
        simp
      · exact h
  refine ⟨hiff, ?_⟩
  intro hle
  cases hl : setupVAOLoop norms verts 0 [] with
  | none =>
    have h := (setupVAOLoop_isSome norms verts 0 []).2 (Or.inr (by simpa using hle))
    rw [hl] at h
    cases h
  | some data =>
    obtain ⟨rest, ho, hlen, hk⟩ := setupVAOLoop_spec norms verts 0 [] data hl
    simp only [List.nil_append] at ho
    subst ho
    have hup : setupVAO hasNormal verts norms = some
        { data := data
          bufferBytes := data.length * sizeofGLfloat
          position := { size := 4, stride := 7 * sizeofGLfloat, offset := 0 }
          normal :=
            if hasNormal = true then
              some { size := 3, stride := 7 * sizeofGLfloat, offset := 4 * sizeofGLfloat }
            else none } := by
      simp only [setupVAO, hl]
    refine ⟨_, hup, hlen, ?_, ?_, rfl, rfl⟩
    · show data.length * sizeofGLfloat = 7 * verts.length * sizeofGLfloat
      rw [hlen]
    · intro i v hv
      simpa using hk i v hv

/-! ## Kinematics integrator -/

theorem integrate_y (o : PhysObject) (dt : ℚ) (bounds : Bounds)
    (gravity restitution airResistance simulationSpeed : ℚ) :
    (integrate o dt bounds gravity restitution airResistance simulationSpeed).y =
      if updatedY o dt gravity simulationSpeed > floorBoundary o bounds then floorBoundary o bounds
      else if updatedY o dt gravity simulationSpeed < o.size / 2 then o.size / 2
      else updatedY o dt gravity simulationSpeed := by
  simp only [integrate, updatedY, floorBoundary]
  split
  · rfl
  · split <;> rfl

theorem integrate_vy (o : PhysObject) (dt : ℚ) (bounds : Bounds)
    (gravity restitution airResistance simulationSpeed : ℚ) :
    (integrate o dt bounds gravity restitution airResistance simulationSpeed).vy =
      if updatedY o dt gravity simulationSpeed > floorBoundary o bounds then
        -impactVy o dt gravity simulationSpeed * restitution
      else if updatedY o dt gravity simulationSpeed < o.size / 2 then
        -impactVy o dt gravity simulationSpeed * restitution
      else impactVy o dt gravity simulationSpeed := by
  simp only [integrate, updatedY, floorBoundary, impactVy]
  split
  · rfl
  · split <;> rfl

theorem scenario_crosses_floor :
    updatedY scenarioObject 1 GRAVITY 1 > floorBoundary scenarioObject scenarioBounds := by
  simp only [updatedY, floorBoundary, scenarioObject, BALL_SIZE, scenarioBounds, windowWidth,
    windowHeight, GRAVITY, dt_scale]
  norm_num

/-- C2, as stated, fails on the scenario of section 8: the object at (0, 590)
with velocity (6, 10) crosses the floor, but with the velocity update
`vy += gravity * dt_scale` in force its vertical velocity after the step is not
`-10 * 0.92 = -9.2`; it is `-(10 + 0.35) * 0.92 = -9.522`. -/
theorem C2_scenario_vy_is_not_minus_9_2 :
    updatedY scenarioObject 1 GRAVITY 1 > floorBoundary scenarioObject scenarioBounds ∧
    -scenarioObject.vy * RESTITUTION = -92 / 10 ∧
    (integrate scenarioObject 1 scenarioBounds GRAVITY RESTITUTION AIR_RESISTANCE 1).vy ≠
      -scenarioObject.vy * RESTITUTION ∧
    (integrate scenarioObject 1 scenarioBounds GRAVITY RESTITUTION AIR_RESISTANCE 1).vy =
      -9522 / 1000 := by
  have hv : (integrate scenarioObject 1 scenarioBounds GRAVITY RESTITUTION AIR_RESISTANCE 1).vy =
      -9522 / 1000 := by
    rw [integrate_vy, if_pos scenario_crosses_floor]
    simp only [impactVy, scenarioObject, BALL_SIZE, GRAVITY, RESTITUTION, dt_scale]
    norm_num
  refine ⟨scenario_crosses_floor, ?_, ?_, hv⟩
  · simp only [scenarioObject, BALL_SIZE, RESTITUTION]
    norm_num
  · rw [hv]
    simp only [scenarioObject, BALL_SIZE, RESTITUTION]
    norm_num

/-- C2, amended: for every object whose updated position crosses the floor
boundary, `integrate` leaves `y` exactly at the floor boundary (window height
minus half the size) and sets `vy` to minus the velocity after the gravity
update times the restitution, `-(vy + gravity * dt_scale) * restitution`.  In
the scenario of section 8 this is `y = 570` and `vy = -9.522`. -/
theorem C2_floor_bounce_clamps_and_reflects (o : PhysObject) (dt : ℚ) (bounds : Bounds)
    (gravity restitution airResistance simulationSpeed : ℚ)
    (hcross : updatedY o dt gravity simulationSpeed > floorBoundary o bounds) :
    (integrate o dt bounds gravity restitution airResistance simulationSpeed).y =
      bounds.height - o.size / 2 ∧
    (integrate o dt bounds gravity restitution airResistance simulationSpeed).vy =
      -(o.vy + gravity * dt_scale dt simulationSpeed) * restitution := by
  constructor
  · rw [integrate_y, if_pos hcross]
    rfl
  · rw [integrate_vy, if_pos hcross]
    rfl

/-- Witness of C2 (amended) on the scenario of section 8: the floor is crossed,
`y` becomes `600 - 30 = 570` and `vy` becomes `-(10 + 0.35) * 0.92 = -9.522`. -/
theorem C2_floor_bounce_clamps_and_reflects_witness :
    updatedY scenarioObject 1 GRAVITY 1 > floorBoundary scenarioObject scenarioBounds ∧
    (integrate scenarioObject 1 scenarioBounds GRAVITY RESTITUTION AIR_RESISTANCE 1).y = 570 ∧
    (integrate scenarioObject 1 scenarioBounds GRAVITY RESTITUTION AIR_RESISTANCE 1).vy =
      -9522 / 1000 := by
  have h := C2_floor_bounce_clamps_and_reflects scenarioObject 1 scenarioBounds GRAVITY
    RESTITUTION AIR_RESISTANCE 1 scenario_crosses_floor
  refine ⟨scenario_crosses_floor, ?_, ?_⟩
  · rw [h.1]
    simp only [scenarioObject, BALL_SIZE, scenarioBounds, windowWidth, windowHeight]
    norm_num
  · rw [h.2]
    simp only [scenarioObject, BALL_SIZE, GRAVITY, RESTITUTION, dt_scale]
    norm_num

theorem integrate_size (o : PhysObject) (dt : ℚ) (bounds : Bounds)
    (gravity restitution airResistance simulationSpeed : ℚ) :
    (integrate o dt bounds gravity restitution airResistance simulationSpeed).size = o.size := rfl

/-- Free flight: as long as no step touches the floor or the ceiling, the
vertical velocity grows by `gravity * dt_scale` per step and the position
follows. -/
theorem free_flight (o : PhysObject) (dt : ℚ) (bounds : Bounds)
    (gravity restitution airResistance simulationSpeed : ℚ) (K : Nat)
    (hfree : ∀ i, i < K →
      FreeStep (integrateN dt bounds gravity restitution airResistance simulationSpeed i o)
        dt bounds gravity simulationSpeed) :
    ∀ i, i ≤ K →
      (integrateN dt bounds gravity restitution airResistance simulationSpeed i o).size = o.size ∧
      (integrateN dt bounds gravity restitution airResistance simulationSpeed i o).vy =
        o.vy + i * (gravity * dt_scale dt simulationSpeed) ∧
      (integrateN dt bounds gravity restitution airResistance simulationSpeed i o).y =
        o.y + dt_scale dt simulationSpeed *
          (i * o.vy + gravity * dt_scale dt simulationSpeed * (i * (i + 1) / 2)) := by
  intro i
  induction i with
  | zero =>
    intro _
    simp [integrateN]
  | succ i ih =>
    intro hi
    obtain ⟨h1, h2, h3⟩ := ih (Nat.le_of_succ_le hi)
    obtain ⟨f1, f2⟩ := hfree i (Nat.lt_of_succ_le hi)
    refine ⟨?_, ?_, ?_⟩
    · rw [integrateN, integrate_size, h1]
    · rw [integrateN, integrate_vy, if_neg f1, if_neg f2, impactVy, h2]
      push_cast
      ring
    · rw [integrateN, integrate_y, if_neg f1, if_neg f2, updatedY, h2, h3]
      push_cast
      ring

/-- Between two floor bounces: an object that leaves the floor upwards with
speed at least `gravity * dt_scale / 2`, flies freely for `K` steps and crosses
the floor in the next step, leaves that bounce with at most `restitution` times
the speed it had after the previous one. -/
theorem next_floor_bounce_speed (o : PhysObject) (dt : ℚ) (bounds : Bounds)
    (gravity restitution airResistance simulationSpeed : ℚ) (K : Nat)
    (hs : 0 < dt_scale dt simulationSpeed) (hg : 0 < gravity)
    (hr0 : 0 ≤ restitution)
    (hy : o.y = floorBoundary o bounds) (hv : o.vy < 0)
    (hbig : gravity * dt_scale dt simulationSpeed ≤ 2 * |o.vy|)
    (hfree : ∀ i, i < K →
      FreeStep (integrateN dt bounds gravity restitution airResistance simulationSpeed i o)
        dt bounds gravity simulationSpeed)
    (hhit : updatedY (integrateN dt bounds gravity restitution airResistance simulationSpeed K o)
        dt gravity simulationSpeed >
      floorBoundary (integrateN dt bounds gravity restitution airResistance simulationSpeed K o)
        bounds) :
    |(integrateN dt bounds gravity restitution airResistance simulationSpeed (K + 1) o).vy| ≤
      restitution * |o.vy| := by
  have habs : |o.vy| = -o.vy := abs_of_neg hv
  rw [habs] at hbig ⊢
  obtain ⟨_, hvy, _⟩ := free_flight o dt bounds gravity restitution airResistance
    simulationSpeed K hfree K (le_refl K)
  have hgs : 0 < gravity * dt_scale dt simulationSpeed := mul_pos hg hs
  have hK0 : (0 : ℚ) ≤ K := Nat.cast_nonneg K
  -- the velocity with which the floor is reached
  have himp : impactVy (integrateN dt bounds gravity restitution airResistance simulationSpeed K o)
      dt gravity simulationSpeed = o.vy + (K + 1) * (gravity * dt_scale dt simulationSpeed) := by
    rw [impactVy, hvy]
    ring
  have hlow : o.vy ≤ o.vy + (K + 1) * (gravity * dt_scale dt simulationSpeed) := by
    have : 0 ≤ (K + 1) * (gravity * dt_scale dt simulationSpeed) :=
      mul_nonneg (by linarith) (le_of_lt hgs)
    linarith
  have hup : o.vy + (K + 1) * (gravity * dt_scale dt simulationSpeed) ≤ -o.vy := by
    cases K with
    | zero =>
      simp only [Nat.cast_zero, zero_add, one_mul]
      linarith
    | succ k =>
      obtain ⟨hsz, hvk, hyk⟩ := free_flight o dt bounds gravity restitution airResistance
        simulationSpeed (k + 1) hfree k (Nat.le_succ k)
      have hno := (hfree k (Nat.lt_succ_self k)).1
      rw [updatedY, floorBoundary, hsz, hvk, hyk, hy, floorBoundary] at hno
      have hk0 : (0 : ℚ) ≤ k := Nat.cast_nonneg k
      have hle : dt_scale dt simulationSpeed *
          ((k + 1) * (o.vy + gravity * dt_scale dt simulationSpeed * ((k + 2) / 2))) ≤ 0 := by
        have hno' := not_lt.mp hno
        have e : o.y + dt_scale dt simulationSpeed *
              (k * o.vy + gravity * dt_scale dt simulationSpeed * (k * (k + 1) / 2)) +
            (o.vy + k * (gravity * dt_scale dt simulationSpeed) +
              gravity * dt_scale dt simulationSpeed) * dt_scale dt simulationSpeed =
            o.y + dt_scale dt simulationSpeed *
              ((k + 1) * (o.vy + gravity * dt_scale dt simulationSpeed * ((k + 2) / 2))) := by
          ring
        rw [hy, floorBoundary] at e
        linarith
      have h1 : (k + 1) * (o.vy + gravity * dt_scale dt simulationSpeed * ((k + 2) / 2)) ≤ 0 := by
        by_contra hc
        have := mul_pos hs (not_le.mp hc)
        linarith
      have h2 : o.vy + gravity * dt_scale dt simulationSpeed * ((k + 2) / 2) ≤ 0 := by
        by_contra hc
        have : 0 < (k + 1 : ℚ) * (o.vy + gravity * dt_scale dt simulationSpeed * ((k + 2) / 2)) :=
          mul_pos (by linarith) (not_le.mp hc)
        linarith
      push_cast
      linarith
  have hvy' : (integrateN dt bounds gravity restitution airResistance simulationSpeed (K + 1) o).vy =
      -(o.vy + (K + 1) * (gravity * dt_scale dt simulationSpeed)) * restitution := by
    rw [integrateN, integrate_vy, if_pos hhit, himp]
  rw [hvy', abs_mul, abs_neg, abs_of_nonneg hr0, mul_comm]
  apply mul_le_mul_of_nonneg_left _ hr0
  rw [abs_le]
  constructor <;> linarith

theorem slowObject_first_step : programStep slowObject =
    { x := 400, y := 570, vx := 0, vy := -1 / 100, size := 60 } := by
  simp only [programStep, integrate, slowObject, scenarioBounds, windowWidth, windowHeight,
    GRAVITY, RESTITUTION,
    AIR_RESISTANCE, dt_scale]
  norm_num

theorem slowObject_second_step : programStep (programStep slowObject) =
    { x := 400, y := 570, vx := 0, vy := -3128 / 10000, size := 60 } := by
  rw [slowObject_first_step]
  simp only [programStep, integrate, scenarioBounds, windowWidth, windowHeight, GRAVITY,
    RESTITUTION,
    AIR_RESISTANCE, dt_scale]
  norm_num

/-- C4, as stated, fails: with the constants of the program (restitution
0.92 < 1) an object near rest bounces on the floor in two consecutive steps, and
its vertical speed after the second bounce, 0.3128, is larger than after the
first, 0.01. -/
theorem C4_slow_bounce_gains_speed :
    RESTITUTION < 1 ∧
    updatedY slowObject 1 GRAVITY 1 > floorBoundary slowObject scenarioBounds ∧
    updatedY (programStep slowObject) 1 GRAVITY 1 >
      floorBoundary (programStep slowObject) scenarioBounds ∧
    |(programStep slowObject).vy| = 1 / 100 ∧
    |(programStep (programStep slowObject)).vy| = 3128 / 10000 ∧
    ¬ (|(programStep (programStep slowObject)).vy| < |(programStep slowObject).vy|) := by
  have a1 : |(programStep slowObject).vy| = 1 / 100 := by
    rw [slowObject_first_step]
    simp only [abs_div]
    norm_num
  have a2 : |(programStep (programStep slowObject)).vy| = 3128 / 10000 := by
    rw [slowObject_second_step]
    simp only [abs_div]
    norm_num
  refine ⟨?_, ?_, ?_, a1, a2, ?_⟩
  · simp only [RESTITUTION]
    norm_num
  · simp only [updatedY, floorBoundary, slowObject, scenarioBounds, windowWidth, windowHeight,
    GRAVITY, dt_scale]
    norm_num
  · rw [slowObject_first_step]
    simp only [updatedY, floorBoundary, scenarioBounds, windowWidth, windowHeight, GRAVITY,
      dt_scale]
    norm_num
  · rw [a1, a2]
    norm_num

/-- C4, amended: a bounce never adds vertical speed, and between two floor
bounces the speed drops unless the object is nearly at rest.  For
`0 <= restitution < 1`: (1) in a step in which the floor or the ceiling is
crossed, the vertical speed after the step is `restitution` times the speed with
which the object reached the boundary (its velocity after the gravity update of
that step): never larger, and strictly smaller when that speed is not zero;
(2) if the object leaves a floor bounce upwards with speed at least
`gravity * dt_scale / 2`, flies for `K` steps without touching floor or ceiling
and crosses the floor in the next step, then its speed after that bounce is at
most `restitution` times, hence strictly less than, its speed after the previous
bounce.  The restitution of the program, 0.92, is in this range. -/
theorem C4_bounce_reduces_impact_speed (o : PhysObject) (dt : ℚ) (bounds : Bounds)
    (gravity restitution airResistance simulationSpeed : ℚ) (K : Nat)
    (hr0 : 0 ≤ restitution) (hr1 : restitution < 1) :
    ((updatedY o dt gravity simulationSpeed > floorBoundary o bounds ∨
        updatedY o dt gravity simulationSpeed < o.size / 2) →
      |(integrate o dt bounds gravity restitution airResistance simulationSpeed).vy| =
        restitution * |impactVy o dt gravity simulationSpeed| ∧
      |(integrate o dt bounds gravity restitution airResistance simulationSpeed).vy| ≤
        |impactVy o dt gravity simulationSpeed| ∧
      (impactVy o dt gravity simulationSpeed ≠ 0 →
        |(integrate o dt bounds gravity restitution airResistance simulationSpeed).vy| <
          |impactVy o dt gravity simulationSpeed|)) ∧
    (0 < dt_scale dt simulationSpeed → 0 < gravity →
      o.y = floorBoundary o bounds → o.vy < 0 →
      gravity * dt_scale dt simulationSpeed ≤ 2 * |o.vy| →
      (∀ i, i < K →
        FreeStep (integrateN dt bounds gravity restitution airResistance simulationSpeed i o)
          dt bounds gravity simulationSpeed) →
      updatedY (integrateN dt bounds gravity restitution airResistance simulationSpeed K o)
          dt gravity simulationSpeed >
        floorBoundary (integrateN dt bounds gravity restitution airResistance simulationSpeed K o)
          bounds →
      |(integrateN dt bounds gravity restitution airResistance simulationSpeed (K + 1) o).vy| ≤
          restitution * |o.vy| ∧
        |(integrateN dt bounds gravity restitution airResistance simulationSpeed (K + 1) o).vy| <
          |o.vy|) ∧
    (0 ≤ RESTITUTION ∧ RESTITUTION < 1) := by
  refine ⟨?_, ?_, ?_⟩
  · intro hcross
    have hv : (integrate o dt bounds gravity restitution airResistance simulationSpeed).vy =
        -impactVy o dt gravity simulationSpeed * restitution := by
      rw [integrate_vy]
      rcases hcross with h | h
      · rw [if_pos h]
      · by_cases h' : updatedY o dt gravity simulationSpeed > floorBoundary o bounds
        · rw [if_pos h']
        · rw [if_neg h', if_pos h]
    have ha : |(integrate o dt bounds gravity restitution airResistance simulationSpeed).vy| =
        restitution * |impactVy o dt gravity simulationSpeed| := by
      rw [hv, abs_mul, abs_neg, abs_of_nonneg hr0, mul_comm]
    have hnn : 0 ≤ |impactVy o dt gravity simulationSpeed| := abs_nonneg _
    refine ⟨ha, ?_, ?_⟩
    · rw [ha]
      nlinarith
    · intro hne
      have hpos : 0 < |impactVy o dt gravity simulationSpeed| := abs_pos.mpr hne
      rw [ha]
      nlinarith
  · intro hs hg hy hv hbig hfree hhit
    have h := next_floor_bounce_speed o dt bounds gravity restitution airResistance
      simulationSpeed K hs hg hr0 hy hv hbig hfree hhit
    have hpos : 0 < |o.vy| := abs_pos.mpr (ne_of_lt hv)
    refine ⟨h, lt_of_le_of_lt h ?_⟩
    nlinarith
  · simp only [RESTITUTION]
    constructor <;> norm_num

theorem reboundObject_first_step : programStep reboundObject =
    { x := 400, y := 56995 / 100, vx := 0, vy := -5 / 100, size := 60 } := by
  simp only [programStep, integrate, reboundObject, scenarioBounds, windowWidth, windowHeight,
    GRAVITY, RESTITUTION,
    AIR_RESISTANCE, dt_scale]
  norm_num

/-- Witness of C4 (amended).  In the scenario of section 8 the object reaches the
floor with speed 10.35 and leaves it with speed 9.522.  An object that left the
floor with speed 0.4 flies one step, crosses the floor in the second and leaves
it with speed 0.276. -/
theorem C4_bounce_reduces_impact_speed_witness :
    (0 ≤ RESTITUTION ∧ RESTITUTION < 1) ∧
    updatedY scenarioObject 1 GRAVITY 1 > floorBoundary scenarioObject scenarioBounds ∧
    |(integrate scenarioObject 1 scenarioBounds GRAVITY RESTITUTION AIR_RESISTANCE 1).vy| <
      |impactVy scenarioObject 1 GRAVITY 1| ∧
    FreeStep reboundObject 1 scenarioBounds GRAVITY 1 ∧
    updatedY (integrateN 1 scenarioBounds GRAVITY RESTITUTION AIR_RESISTANCE 1 1 reboundObject)
        1 GRAVITY 1 >
      floorBoundary (integrateN 1 scenarioBounds GRAVITY RESTITUTION AIR_RESISTANCE 1 1
        reboundObject) scenarioBounds ∧
    |(integrateN 1 scenarioBounds GRAVITY RESTITUTION AIR_RESISTANCE 1 (1 + 1) reboundObject).vy| <
      |reboundObject.vy| := by
  have hr : 0 ≤ RESTITUTION ∧ RESTITUTION < 1 := by
    simp only [RESTITUTION]
    constructor <;> norm_num
  have hne : impactVy scenarioObject 1 GRAVITY 1 ≠ 0 := by
    simp only [impactVy, scenarioObject, BALL_SIZE, GRAVITY, dt_scale]
    norm_num
  have hfree0 : FreeStep reboundObject 1 scenarioBounds GRAVITY 1 := by
    simp only [FreeStep, updatedY, floorBoundary, reboundObject, scenarioBounds, windowWidth,
      windowHeight, GRAVITY, dt_scale]
    constructor <;> norm_num
  have h1 : integrateN 1 scenarioBounds GRAVITY RESTITUTION AIR_RESISTANCE 1 1 reboundObject =
      { x := 400, y := 56995 / 100, vx := 0, vy := -5 / 100, size := 60 } :=
    reboundObject_first_step
  have hhit : updatedY (integrateN 1 scenarioBounds GRAVITY RESTITUTION AIR_RESISTANCE 1 1
        reboundObject) 1 GRAVITY 1 >
      floorBoundary (integrateN 1 scenarioBounds GRAVITY RESTITUTION AIR_RESISTANCE 1 1
        reboundObject) scenarioBounds := by
    rw [h1]
    simp only [updatedY, floorBoundary, scenarioBounds, windowWidth, windowHeight, GRAVITY,
      dt_scale]
    norm_num
  have hfree : ∀ i, i < 1 →
      FreeStep (integrateN 1 scenarioBounds GRAVITY RESTITUTION AIR_RESISTANCE 1 i reboundObject)
        1 scenarioBounds GRAVITY 1 := by
    intro i hi
    have : i = 0 := by omega
    subst this
    exact hfree0
  have hv : reboundObject.vy < 0 := by
    simp only [reboundObject]
    norm_num
  have hy : reboundObject.y = floorBoundary reboundObject scenarioBounds := by
    simp only [floorBoundary, reboundObject, scenarioBounds, windowWidth, windowHeight]
    norm_num
  have hbig : GRAVITY * dt_scale 1 1 ≤ 2 * |reboundObject.vy| := by
    rw [abs_of_neg hv]
    simp only [reboundObject, GRAVITY, dt_scale]
    norm_num
  exact ⟨hr, scenario_crosses_floor,
    (C4_bounce_reduces_impact_speed scenarioObject 1 scenarioBounds GRAVITY RESTITUTION
      AIR_RESISTANCE 1 0 hr.1 hr.2).1 (Or.inl scenario_crosses_floor) |>.2.2 hne,
    hfree0, hhit,
    ((C4_bounce_reduces_impact_speed reboundObject 1 scenarioBounds GRAVITY RESTITUTION
      AIR_RESISTANCE 1 1 hr.1 hr.2).2.1 (by simp only [dt_scale]; norm_num)
      (by simp only [GRAVITY]; norm_num) hy hv hbig hfree hhit).2⟩

/-! ## Trajectory sampler -/

theorem wrapInt_of_range (z : Int) (h1 : -2 ^ 31 ≤ z) (h2 : z < 2 ^ 31) : wrapInt z = z := by
  unfold wrapInt
  omega

/-- Without overflow, line 186 computes `(y * windowWidth + x) * 3`, and this
offset is inside an array of `3 * w * h` bytes. -/
theorem pixelPos_eq (w h y x : Int) (hov : 3 * w * h ≤ 2 ^ 31 - 1)
    (hy0 : 0 ≤ y) (hy : y < h) (hx0 : 0 ≤ x) (hx : x < w) :
    pixelPos w y x = (y * w + x) * 3 ∧ 0 ≤ (y * w + x) * 3 ∧ (y * w + x) * 3 + 3 ≤ 3 * w * h := by
  have hw : 0 < w := lt_of_le_of_lt hx0 hx
  have h1 : 0 ≤ y * w := mul_nonneg hy0 (le_of_lt hw)
  have h2 : y * w ≤ (h - 1) * w := mul_le_mul_of_nonneg_right (by omega) (le_of_lt hw)
  have h3 : (h - 1) * w = h * w - w := by ring
  have h4 : 3 * w * h = 3 * (h * w) := by ring
  have e1 : wrapInt (y * w) = y * w := wrapInt_of_range _ (by omega) (by omega)
  have e2 : wrapInt (y * w + x) = y * w + x := wrapInt_of_range _ (by omega) (by omega)
  have e3 : wrapInt ((y * w + x) * 3) = (y * w + x) * 3 :=
    wrapInt_of_range _ (by omega) (by omega)
  refine ⟨?_, by omega, by omega⟩
  unfold pixelPos
  rw [e1, e2, e3]

/-- The inner loop: when every iteration emits `c` items, the row has `c * n`
items and the items of iteration `k` are at positions `c * k .. c * k + c - 1`. -/
theorem rowLoop_spec {γ : Type} (emit : Int → Option (List γ)) (w y : Int) (c n : Nat) (x : Int)
    (he : ∀ k : Nat, k < n → ∃ bs, emit (pixelPos w y (x + k)) = some bs ∧ bs.length = c) :
    ∃ out, rowLoop emit w y n x = some out ∧ out.length = c * n ∧
      ∀ k : Nat, k < n → ∀ bs, emit (pixelPos w y (x + k)) = some bs →
        ∀ j, j < c → out[c * k + j]? = bs[j]? := by
  induction n generalizing x with
  | zero => exact ⟨[], rfl, by simp, fun k hk => absurd hk (Nat.not_lt_zero k)⟩
  | succ n ih =>
    obtain ⟨bs0, hb0, hl0⟩ := he 0 (Nat.succ_pos n)
    simp only [Nat.cast_zero, add_zero] at hb0
    have he' : ∀ k : Nat, k < n → ∃ bs, emit (pixelPos w y (x + 1 + k)) = some bs ∧
        bs.length = c := by
      intro k hk
      have := he (k + 1) (Nat.succ_lt_succ hk)
      have e : x + ((k + 1 : Nat) : Int) = x + 1 + k := by push_cast; ring
      rwa [e] at this
    obtain ⟨rest, hr, hlr, hidx⟩ := ih (x + 1) he'
    refine ⟨bs0 ++ rest, ?_, ?_, ?_⟩
    · simp only [rowLoop, hb0, hr]
    · rw [List.length_append, hl0, hlr, Nat.mul_succ, Nat.add_comm]
    · intro k hk bs hbs j hj
      cases k with
      | zero =>
        simp only [Nat.cast_zero, add_zero] at hbs
        rw [hb0] at hbs
        cases hbs
        rw [Nat.mul_zero, Nat.zero_add, List.getElem?_append_left (by omega)]
      | succ k =>
        have e : x + ((k + 1 : Nat) : Int) = x + 1 + k := by push_cast; ring
        rw [e] at hbs
        have := hidx k (Nat.lt_of_succ_lt_succ hk) bs hbs j hj
        rw [List.getElem?_append_right (by rw [hl0, Nat.mul_succ]; omega)]
        rw [← this]
        congr 1
        rw [hl0, Nat.mul_succ]
        omega

/-- The outer loop: when every iteration of the inner loop emits `c` items, the
output has `c * W * n` items and the items of row `r`, column `x` are at
positions `c * (r * W + x) ..`. -/
theorem columnLoop_spec {γ : Type} (emit : Int → Option (List γ)) (w : Int) (c n : Nat)
    (y : Int)
    (he : ∀ r : Nat, r < n → ∀ x : Nat, x < w.toNat →
      ∃ bs, emit (pixelPos w (y - r) x) = some bs ∧ bs.length = c) :
    ∃ out, columnLoop emit w n y = some out ∧ out.length = c * (n * w.toNat) ∧
      ∀ r : Nat, r < n → ∀ x : Nat, x < w.toNat → ∀ bs,
        emit (pixelPos w (y - r) x) = some bs →
          ∀ j, j < c → out[c * (r * w.toNat + x) + j]? = bs[j]? := by
  induction n generalizing y with
  | zero => exact ⟨[], rfl, by simp, fun r hr => absurd hr (Nat.not_lt_zero r)⟩
  | succ n ih =>
    have hrow : ∀ k : Nat, k < w.toNat →
        ∃ bs, emit (pixelPos w y ((0 : Int) + k)) = some bs ∧ bs.length = c := by
      intro k hk
      have := he 0 (Nat.succ_pos n) k hk
      simpa using this
    obtain ⟨row, hrw, hlrow, hidxrow⟩ := rowLoop_spec emit w y c w.toNat 0 hrow
    have he' : ∀ r : Nat, r < n → ∀ x : Nat, x < w.toNat →
        ∃ bs, emit (pixelPos w (y - 1 - r) x) = some bs ∧ bs.length = c := by
      intro r hr x hx
      have := he (r + 1) (Nat.succ_lt_succ hr) x hx
      have e : y - ((r + 1 : Nat) : Int) = y - 1 - r := by push_cast; ring
      rwa [e] at this
    obtain ⟨rest, hr, hlr, hidx⟩ := ih (y - 1) he'
    refine ⟨row ++ rest, ?_, ?_, ?_⟩
    · simp only [columnLoop, hrw, hr]
    · rw [List.length_append, hlrow, hlr, Nat.succ_mul, Nat.mul_add, Nat.add_comm]
    · intro r hr' x hx bs hbs j hj
      cases r with
      | zero =>
        simp only [Nat.cast_zero, sub_zero] at hbs
        have h0 := hidxrow x hx bs (by simpa using hbs) j hj
        have hlt : c * x + j < row.length := by
          rw [hlrow]
          calc c * x + j < c * x + c := by omega
            _ = c * (x + 1) := by rw [Nat.mul_succ]
            _ ≤ c * w.toNat := Nat.mul_le_mul_left c hx
        rw [Nat.zero_mul, Nat.zero_add, List.getElem?_append_left hlt]
        exact h0
      | succ r =>
        have e : y - ((r + 1 : Nat) : Int) = y - 1 - r := by push_cast; ring
        rw [e] at hbs
        have := hidx r (Nat.lt_of_succ_lt_succ hr') x hx bs hbs j hj
        have hidxeq : c * ((r + 1) * w.toNat + x) + j =
            c * w.toNat + (c * (r * w.toNat + x) + j) := by
          rw [Nat.succ_mul, Nat.mul_add, Nat.mul_add, Nat.mul_add]
          omega
        rw [hidxeq, List.getElem?_append_right (by rw [hlrow]; omega)]
        rw [← this]
        congr 1
        rw [hlrow]
        omega

theorem readPixel_spec {β : Type} (pixels : List β) (n : Nat) (hn : n + 3 ≤ pixels.length) :
    ∃ bs, readPixel pixels (n : Int) = some bs ∧ bs.length = 3 ∧
      ∀ j, j < 3 → bs[j]? = pixels[n + j]? := by
  refine ⟨(pixels.drop n).take 3, ?_, ?_, ?_⟩
  · unfold readPixel
    rw [if_pos]
    · simp
    · simp only [Int.toNat_ofNat]
      exact ⟨Int.ofNat_nonneg n, hn⟩
  · rw [List.length_take, List.length_drop]
    omega
  · intro j hj
    rw [List.getElem?_take_of_lt hj, List.getElem?_drop]

/-- With `W, H > 0` and `3 * W * H` an `int`, the offset computed in row `r`
(counted from the first row written) and column `x`. -/
theorem pixelPos_row (W H r x : Nat) (hov : 3 * W * H ≤ 2 ^ 31 - 1) (hr : r < H) (hx : x < W) :
    pixelPos (W : Int) ((H : Int) - 1 - r) x = ((((H - 1 - r) * W + x) * 3 : Nat) : Int) ∧
    ((H - 1 - r) * W + x) * 3 + 3 ≤ 3 * W * H := by
  have ey : (H : Int) - 1 - r = ((H - 1 - r : Nat) : Int) := by omega
  have hovI : 3 * (W : Int) * H ≤ 2 ^ 31 - 1 := by
    have : ((3 * W * H : Nat) : Int) ≤ ((2 ^ 31 - 1 : Nat) : Int) := Int.ofNat_le.mpr hov
    simpa using this
  have h := pixelPos_eq (W : Int) (H : Int) ((H - 1 - r : Nat) : Int) (x : Int) hovI
    (Int.ofNat_nonneg _) (by omega) (Int.ofNat_nonneg _) (by omega)
  rw [ey]
  refine ⟨?_, ?_⟩
  · rw [h.1]
    push_cast
    ring
  · have h3 := h.2.2
    have : ((((H - 1 - r) * W + x) * 3 + 3 : Nat) : Int) ≤ ((3 * W * H : Nat) : Int) := by
      push_cast
      push_cast at h3
      linarith
    exact Int.ofNat_le.mp this

theorem pixelLoops_eq_columnLoop {γ : Type} (emit : Int → Option (List γ)) (W H : Nat)
    (hW : 0 < W) (hH : 0 < H) (hov : 3 * W * H ≤ 2 ^ 31 - 1) :
    pixelLoops emit (W : Int) (H : Int) = columnLoop emit (W : Int) H ((H : Int) - 1) := by
  have h1 : H ≤ 3 * W * H := Nat.le_mul_of_pos_left H (by omega)
  have e : wrapInt ((H : Int) - 1) = (H : Int) - 1 := wrapInt_of_range _ (by omega) (by omega)
  unfold pixelLoops
  rw [e]
  congr 1
  omega

theorem pixelBufferSize_eq (W H : Nat) (hH : 0 < H) (hov : 3 * W * H ≤ 2 ^ 31 - 1) :
    pixelBufferSize (W : Int) (H : Int) = ((3 * W * H : Nat) : Int) := by
  have h1 : 3 * W ≤ 3 * W * H := Nat.le_mul_of_pos_right (3 * W) hH
  have e1 : wrapInt (3 * (W : Int)) = 3 * (W : Int) :=
    wrapInt_of_range _ (by omega) (by omega)
  have h2 : ((3 * W * H : Nat) : Int) = 3 * (W : Int) * (H : Int) := by push_cast; ring
  have e2 : wrapInt (3 * (W : Int) * (H : Int)) = 3 * (W : Int) * (H : Int) :=
    wrapInt_of_range _ (by omega) (by omega)
  unfold pixelBufferSize
  rw [e1, e2, h2]

/-- The row and column of the write number `k`, and back. -/
theorem div_mod_of_row_col (W r x : Nat) (hx : x < W) :
    (r * W + x) / W = r ∧ (r * W + x) % W = x := by
  have hW : 0 < W := Nat.lt_of_le_of_lt (Nat.zero_le x) hx
  constructor
  · rw [Nat.add_comm, Nat.add_mul_div_right _ _ hW, Nat.div_eq_of_lt hx, Nat.zero_add]
  · rw [Nat.add_comm, Nat.add_mul_mod_self_right, Nat.mod_eq_of_lt hx]

/-- C9: `takeScreenshot` writes the framebuffer flipped vertically and stays
inside its buffer.  For `W, H > 0` with `3 * W * H` not overflowing `int`, the
file gets the header `"P6\n<W> <H>\n255\n"` followed by exactly `3 * W * H` bytes;
the k-th pixel written, `k = r * W + x` with `r < H` and `x < W`, is the 3 bytes at
offset `((H - 1 - r) * W + x) * 3` of the pixel array; every such offset is at
least 0 and at most `3 * W * H - 3`; and every pixel offset `3 * p`, `p < W * H`,
is written exactly once. -/
theorem C9_screenshot_flips_rows_in_bounds {β : Type} (W H : Nat) (pixels : List β)
    (hW : 0 < W) (hH : 0 < H) (hov : 3 * W * H ≤ 2 ^ 31 - 1)
    (hsize : (pixels.length : Int) = pixelBufferSize (W : Int) (H : Int)) :
    ∃ data offsets,
      pixels.length = 3 * W * H ∧
      takeScreenshot (W : Int) (H : Int) pixels true =
        ScreenshotResult.saved
          ("P6\n" ++ toString (W : Int) ++ " " ++ toString (H : Int) ++ "\n255\n") data ∧
      writtenOffsets (W : Int) (H : Int) = some offsets ∧
      data.length = 3 * W * H ∧
      offsets.length = W * H ∧
      (∀ r x, r < H → x < W →
        offsets[r * W + x]? = some ((((H - 1 - r) * W + x) * 3 : Nat) : Int) ∧
        (0 : Int) ≤ ((((H - 1 - r) * W + x) * 3 : Nat) : Int) ∧
        ((H - 1 - r) * W + x) * 3 + 3 ≤ 3 * W * H ∧
        ∀ j, j < 3 →
          data[3 * (r * W + x) + j]? = pixels[((H - 1 - r) * W + x) * 3 + j]?) ∧
      (∀ p, p < W * H →
        ∃! k, k < W * H ∧ offsets[k]? = some ((3 * p : Nat) : Int)) := by
  have hlen : pixels.length = 3 * W * H := by
    rw [pixelBufferSize_eq W H hH hov] at hsize
    exact Int.ofNat.inj hsize
  have hpos := pixelPos_row W H
  -- the bytes
  have heD : ∀ r : Nat, r < H → ∀ x : Nat, x < (W : Int).toNat →
      ∃ bs, readPixel pixels (pixelPos (W : Int) ((H : Int) - 1 - r) x) = some bs ∧
        bs.length = 3 := by
    intro r hr x hx
    simp only [Int.toNat_ofNat] at hx
    obtain ⟨e, hb⟩ := hpos r x hov hr hx
    obtain ⟨bs, h1, h2, _⟩ := readPixel_spec pixels (((H - 1 - r) * W + x) * 3)
      (by rw [hlen]; exact hb)
    exact ⟨bs, by rw [e]; exact h1, h2⟩
  obtain ⟨data, hdata, hdlen, hdidx⟩ :=
    columnLoop_spec (readPixel pixels) (W : Int) 3 H ((H : Int) - 1) heD
  -- the offsets
  have heO : ∀ r : Nat, r < H → ∀ x : Nat, x < (W : Int).toNat →
      ∃ bs, (fun pos : Int => some [pos]) (pixelPos (W : Int) ((H : Int) - 1 - r) x) = some bs ∧
        bs.length = 1 := fun r _ x _ => ⟨_, rfl, rfl⟩
  obtain ⟨offsets, hoff, holen, hoidx⟩ :=
    columnLoop_spec (fun pos : Int => some [pos]) (W : Int) 1 H ((H : Int) - 1) heO
  simp only [Int.toNat_ofNat] at hdlen hdidx holen hoidx
  have hO : ∀ r x, r < H → x < W →
      offsets[r * W + x]? = some ((((H - 1 - r) * W + x) * 3 : Nat) : Int) := by
    intro r x hr hx
    have := hoidx r hr x hx _ rfl 0 (Nat.lt_succ_self 0)
    rw [Nat.one_mul, Nat.add_zero] at this
    rw [this, (hpos r x hov hr hx).1]
    rfl
  refine ⟨data, offsets, hlen, ?_, ?_, ?_, ?_, ?_, ?_⟩
  · unfold takeScreenshot
    simp only [Bool.not_true, Bool.false_eq_true, if_false]
    rw [pixelLoops_eq_columnLoop _ W H hW hH hov, hdata]
    rfl
  · unfold writtenOffsets
    rw [pixelLoops_eq_columnLoop _ W H hW hH hov, hoff]
  · rw [hdlen, Nat.mul_comm H W, Nat.mul_assoc]
  · rw [holen, Nat.one_mul, Nat.mul_comm]
  · intro r x hr hx
    obtain ⟨e, hb⟩ := hpos r x hov hr hx
    refine ⟨hO r x hr hx, Int.ofNat_nonneg _, hb, ?_⟩
    intro j hj
    obtain ⟨bs, h1, _, h3⟩ := readPixel_spec pixels (((H - 1 - r) * W + x) * 3)
      (by rw [hlen]; exact hb)
    rw [hdidx r hr x hx bs (by rw [e]; exact h1) j hj]
    exact h3 j hj
  · intro p hp
    obtain ⟨q, m, hpq, hm, hq⟩ : ∃ q m, p = q * W + m ∧ m < W ∧ q < H :=
      ⟨p / W, p % W, by rw [Nat.mul_comm]; exact (Nat.div_add_mod p W).symm, Nat.mod_lt p hW,
        Nat.div_lt_of_lt_mul hp⟩
    subst hpq
    have e : H - 1 - (H - 1 - q) = q := by omega
    refine ⟨(H - 1 - q) * W + m, ⟨?_, ?_⟩, ?_⟩
    · calc (H - 1 - q) * W + m < (H - 1 - q) * W + W := by omega
        _ = (H - 1 - q + 1) * W := by rw [Nat.succ_mul]
        _ ≤ H * W := Nat.mul_le_mul_right W (by omega)
        _ = W * H := Nat.mul_comm H W
    · rw [hO (H - 1 - q) m (by omega) hm, e, Nat.mul_comm 3]
    · intro k hk
      obtain ⟨hk1, hk2⟩ := hk
      obtain ⟨a, b, hab, hb, ha⟩ : ∃ a b, k = a * W + b ∧ b < W ∧ a < H :=
        ⟨k / W, k % W, by rw [Nat.mul_comm]; exact (Nat.div_add_mod k W).symm, Nat.mod_lt k hW,
          Nat.div_lt_of_lt_mul hk1⟩
      subst hab
      rw [hO a b ha hb] at hk2
      have h3 : ((H - 1 - a) * W + b) * 3 = 3 * (q * W + m) :=
        Int.ofNat.inj (Option.some.inj hk2)
      have h4 : (H - 1 - a) * W + b = q * W + m := by omega
      have h5 := div_mod_of_row_col W (H - 1 - a) b hb
      have h6 := div_mod_of_row_col W q m hm
      rw [h4] at h5
      have hqa : q = H - 1 - a := h6.1.symm.trans h5.1
      have hmb : m = b := h6.2.symm.trans h5.2
      have haq : a = H - 1 - q := by omega
      rw [hmb, ← haq]

/-- Witness of C9 on a 2 x 2 window whose pixel array holds the bytes 0 .. 11:
the file gets the header and the 12 bytes, the upper row of the array last. -/
theorem C9_screenshot_flips_rows_in_bounds_witness :
    0 < 2 ∧ 3 * 2 * 2 ≤ 2 ^ 31 - 1 ∧
    ((List.range 12).length : Int) = pixelBufferSize ((2 : Nat) : Int) ((2 : Nat) : Int) ∧
    takeScreenshot (2 : Int) (2 : Int) (List.range 12) true =
      ScreenshotResult.saved "P6\n2 2\n255\n" [6, 7, 8, 9, 10, 11, 0, 1, 2, 3, 4, 5] ∧
    writtenOffsets (2 : Int) (2 : Int) = some [6, 9, 0, 3] ∧
    ∃ data offsets,
      takeScreenshot ((2 : Nat) : Int) ((2 : Nat) : Int) (List.range 12) true =
        ScreenshotResult.saved
          ("P6\n" ++ toString ((2 : Nat) : Int) ++ " " ++ toString ((2 : Nat) : Int) ++ "\n255\n")
          data ∧
      writtenOffsets ((2 : Nat) : Int) ((2 : Nat) : Int) = some offsets ∧
      data.length = 3 * 2 * 2 ∧ offsets.length = 2 * 2 := by
  obtain ⟨data, offsets, _, h1, h2, h3, h4, _, _⟩ :=
    C9_screenshot_flips_rows_in_bounds 2 2 (List.range 12) (by decide) (by decide) (by decide)
      (by decide)
  exact ⟨by decide, by decide, by decide, by rfl, by rfl, data, offsets, h1, h2, h3, h4⟩

end BouncingBall
